import Mathlib

/-!
Shallow embedding of the streaming chat session client of the chat-rag
repository (frontend component ChatInterface, source file
src/unnamed/part_000).  The React component state hooks
(messages, inputMessage, isLoading, isStreaming, error) are modelled as a
record `ChatState`; the async `handleSendMessage` handler is modelled as a
pure big-step function over that record, parameterised by the generated
ids/timestamps and by the outcome of the single `fetch` call (status or the
list of decoded raw body chunks read from the stream reader).  A trace of
externally visible events (message appends and the network request) is
returned alongside the final state so that temporal claims (append before
request, no network call) are directly statable.

`JSON.parse` as used on each `data: `-prefixed line is embedded as an
executable recursive-descent JSON parser (`parseJson`) over the character
list of the line remainder; number literals keep their lexeme (the claims
only exercise string/bool payload fields).  JavaScript truthiness of
`data.error` / `data.chunk` / `data.done` is embedded by `jsTruthy`;
property access on `null` throws in JavaScript and is caught by the inner
catch, which is embedded by `payloadAborts`.
-/

set_option maxRecDepth 4096

/-- Message role, source interface Message (role: user | assistant). -/
inductive Role where
| user
| assistant
deriving DecidableEq, Repr

/-- The wire string of a role, as produced by msg.role in the source. -/
def Role.toWire : Role → String
| .user => "user"
| .assistant => "assistant"

/-- One transcript entry, source interface Message. -/
structure Message where
  id : String
  content : String
  role : Role
  timestamp : Nat
deriving DecidableEq, Repr

/-- Source interface ConversationHistory: a role/content projection. -/
structure ConversationHistory where
  role : String
  content : String
deriving DecidableEq, Repr

/-- The JSON body of the POST request issued by the source fetch call. -/
structure ChatRequest where
  message : String
  conversation_history : List ConversationHistory
deriving DecidableEq, Repr

/-- The React component state hooks of ChatInterface. -/
structure ChatState where
  messages : List Message
  inputMessage : String
  isLoading : Bool
  isStreaming : Bool
  error : Option String
deriving DecidableEq, Repr

/-- The abstract session state of the spec (section 3, SessionState). -/
inductive SessionState where
| idle
| awaitingResponse
| streamingAssistantReply
| error
deriving DecidableEq, Repr

/-- Projection of the component state hooks onto the spec session state:
isLoading covers the awaiting phase, isStreaming the streaming phase, a
retained error value the error display state, and otherwise the session is
idle. -/
def sessionState (st : ChatState) : SessionState :=
  if st.isLoading then .awaitingResponse
  else if st.isStreaming then .streamingAssistantReply
  else if st.error.isSome then .error
  else .idle

/-- Externally visible side effects of one handleSendMessage invocation:
transcript appends (setMessages with a new element) and the network
request (fetch).  In-place content updates are visible through the final
message list. -/
inductive Event where
| appendMessage (m : Message)
| issueRequest (r : ChatRequest)
deriving DecidableEq, Repr

/-- Outcome of the single fetch call: a non-ok response (status and status
text), or an ok response whose body was read as the given list of decoded
text chunks, end of stream after the last one. -/
inductive FetchResult where
| notOk (status : Nat) (statusText : String)
| ok (chunks : List String)
deriving DecidableEq, Repr

/-! ## String primitives

The JavaScript string operations used by the source (trim, split on a
newline, slice, startsWith) are embedded as structurally recursive
functions over the character list of a string, so that every concrete run
of the model reduces inside the kernel. -/

/-- Characters trimmed by String.prototype.trim (the ASCII subset the
claims exercise). -/
def isTrimWs (c : Char) : Bool :=
  ['\t', '\n', '\r', ' '].contains c

/-- JavaScript trim: drop whitespace from both ends. -/
def jsTrim (s : String) : String :=
  String.mk (((s.data.dropWhile isTrimWs).reverse.dropWhile isTrimWs).reverse)

/-- Helper of splitNewlines: the characters of the current line are
accumulated in reverse. -/
def splitNewlinesGo : List Char → List Char → List String
| [], acc => [String.mk acc.reverse]
| '\n' :: t, acc => String.mk acc.reverse :: splitNewlinesGo t []
| c :: t, acc => splitNewlinesGo t (c :: acc)

/-- JavaScript split on a newline separator: the empty string yields one
empty piece, and a trailing newline yields a trailing empty piece. -/
def splitNewlines (s : String) : List String :=
  splitNewlinesGo s.data []

/-- JavaScript slice(n) for a non-negative n. -/
def strDrop (s : String) (n : Nat) : String :=
  String.mk (s.data.drop n)

/-- The first n characters of a string. -/
def strTake (s : String) (n : Nat) : String :=
  String.mk (s.data.take n)

/-- JavaScript startsWith. -/
def strStartsWith (s p : String) : Bool :=
  p.data.isPrefixOf s.data

/-! ## JSON parsing (JSON.parse on a data line remainder) -/

/-- A parsed JSON value.  Numbers keep their validated lexeme. -/
inductive Json where
| null
| bool (b : Bool)
| num (lexeme : String)
| str (s : String)
| arr (elems : List Json)
| obj (fields : List (String × Json))

/-- JSON whitespace accepted by JSON.parse. -/
def isJsonWs (c : Char) : Bool :=
  [' ', '\t', '\n', '\r'].contains c

/-- Skip JSON whitespace. -/
def skipWs (cs : List Char) : List Char :=
  cs.dropWhile isJsonWs

/-- Characters that may occur in a JSON number token. -/
def isNumChar (c : Char) : Bool :=
  c.isDigit || c == '-' || c == '+' || c == '.' || c == 'e' || c == 'E'

/-- Exponent tail: optional sign then one or more digits. -/
def expTail (cs : List Char) : Bool :=
  match cs with
  | '+' :: t => !t.isEmpty && t.all Char.isDigit
  | '-' :: t => !t.isEmpty && t.all Char.isDigit
  | t => !t.isEmpty && t.all Char.isDigit

/-- Optional exponent part of a JSON number. -/
def validExp (cs : List Char) : Bool :=
  match cs with
  | [] => true
  | 'e' :: t => expTail t
  | 'E' :: t => expTail t
  | _ => false

/-- Optional fraction part of a JSON number, then exponent. -/
def validFrac (cs : List Char) : Bool :=
  match cs with
  | '.' :: t => !(t.takeWhile Char.isDigit).isEmpty && validExp (t.dropWhile Char.isDigit)
  | t => validExp t

/-- Integer part of a JSON number after the optional sign. -/
def validNumberCore (cs : List Char) : Bool :=
  match cs with
  | [] => false
  | '0' :: t => validFrac t
  | c :: t => c.isDigit && validFrac (t.dropWhile Char.isDigit)

/-- Validity of a JSON number lexeme per the JSON grammar. -/
def validNumber (cs : List Char) : Bool :=
  match cs with
  | '-' :: t => validNumberCore t
  | t => validNumberCore t

/-- Value of one hex digit, if any. -/
def hexVal (c : Char) : Option Nat :=
  let n := c.toNat
  if 48 ≤ n && n ≤ 57 then some (n - 48)
  else if 97 ≤ n && n ≤ 102 then some (n - 87)
  else if 65 ≤ n && n ≤ 70 then some (n - 55)
  else none

/-- Parse the interior of a JSON string after the opening quote, handling
the JSON escape sequences; returns the content characters and the input
remaining after the closing quote. -/
def parseStringChars : Nat → List Char → Option (List Char × List Char)
| 0, _ => none
| _ + 1, [] => none
| f + 1, c :: rest =>
  if c == '"' then some ([], rest)
  else if c == '\\' then
    match rest with
    | [] => none
    | e :: rest2 =>
      if e == '"' then
        match parseStringChars f rest2 with
        | some (cs, r) => some ('"' :: cs, r)
        | none => none
      else if e == '\\' then
        match parseStringChars f rest2 with
        | some (cs, r) => some ('\\' :: cs, r)
        | none => none
      else if e == '/' then
        match parseStringChars f rest2 with
        | some (cs, r) => some ('/' :: cs, r)
        | none => none
      else if e == 'n' then
        match parseStringChars f rest2 with
        | some (cs, r) => some ('\n' :: cs, r)
        | none => none
      else if e == 't' then
        match parseStringChars f rest2 with
        | some (cs, r) => some ('\t' :: cs, r)
        | none => none
      else if e == 'r' then
        match parseStringChars f rest2 with
        | some (cs, r) => some ('\r' :: cs, r)
        | none => none
      else if e == 'b' then
        match parseStringChars f rest2 with
        | some (cs, r) => some ('\x08' :: cs, r)
        | none => none
      else if e == 'f' then
        match parseStringChars f rest2 with
        | some (cs, r) => some ('\x0c' :: cs, r)
        | none => none
      else if e == 'u' then
        match rest2 with
        | h1 :: h2 :: h3 :: h4 :: rest3 =>
          match hexVal h1, hexVal h2, hexVal h3, hexVal h4 with
          | some v1, some v2, some v3, some v4 =>
            match parseStringChars f rest3 with
            | some (cs, r) =>
              some (Char.ofNat (((v1 * 16 + v2) * 16 + v3) * 16 + v4) :: cs, r)
            | none => none
          | _, _, _, _ => none
        | _ => none
      else none
  else if c.toNat < 32 then none
  else
    match parseStringChars f rest with
    | some (cs, r) => some (c :: cs, r)
    | none => none

mutual

/-- Parse one JSON value at the head of the input. -/
def parseValue : Nat → List Char → Option (Json × List Char)
| 0, _ => none
| f + 1, cs =>
  match cs with
  | [] => none
  | c :: rest =>
    if c == '"' then
      match parseStringChars (f + 1) rest with
      | some (content, r) => some (.str (String.mk content), r)
      | none => none
    else if c == '{' then parseObjectBody f (skipWs rest)
    else if c == '[' then parseArrayBody f (skipWs rest)
    else if c == 't' then
      match rest with
      | 'r' :: 'u' :: 'e' :: r => some (.bool true, r)
      | _ => none
    else if c == 'f' then
      match rest with
      | 'a' :: 'l' :: 's' :: 'e' :: r => some (.bool false, r)
      | _ => none
    else if c == 'n' then
      match rest with
      | 'u' :: 'l' :: 'l' :: r => some (.null, r)
      | _ => none
    else if isNumChar c then
      let tok := cs.takeWhile isNumChar
      if validNumber tok then some (.num (String.mk tok), cs.dropWhile isNumChar)
      else none
    else none

/-- Parse an object body after the opening brace and leading whitespace. -/
def parseObjectBody : Nat → List Char → Option (Json × List Char)
| 0, _ => none
| f + 1, cs =>
  match cs with
  | '}' :: r => some (.obj [], r)
  | _ => parseMembers f cs []

/-- Parse one or more key/value members up to the closing brace. -/
def parseMembers : Nat → List Char → List (String × Json) → Option (Json × List Char)
| 0, _, _ => none
| f + 1, cs, acc =>
  match cs with
  | '"' :: rest =>
    match parseStringChars (f + 1) rest with
    | none => none
    | some (key, r1) =>
      match skipWs r1 with
      | ':' :: r2 =>
        match parseValue f (skipWs r2) with
        | none => none
        | some (v, r3) =>
          match skipWs r3 with
          | ',' :: r4 => parseMembers f (skipWs r4) (acc ++ [(String.mk key, v)])
          | '}' :: r4 => some (.obj (acc ++ [(String.mk key, v)]), r4)
          | _ => none
      | _ => none
  | _ => none

/-- Parse an array body after the opening bracket and leading whitespace. -/
def parseArrayBody : Nat → List Char → Option (Json × List Char)
| 0, _ => none
| f + 1, cs =>
  match cs with
  | ']' :: r => some (.arr [], r)
  | _ => parseElems f cs []

/-- Parse one or more array elements up to the closing bracket. -/
def parseElems : Nat → List Char → List Json → Option (Json × List Char)
| 0, _, _ => none
| f + 1, cs, acc =>
  match parseValue f cs with
  | none => none
  | some (v, r1) =>
    match skipWs r1 with
    | ',' :: r2 => parseElems f (skipWs r2) (acc ++ [v])
    | ']' :: r2 => some (.arr (acc ++ [v]), r2)
    | _ => none

end

/-- JSON.parse: skip surrounding whitespace, parse one value, require end
of input. -/
def parseJson (s : String) : Option Json :=
  match parseValue (2 * s.data.length + 8) (skipWs s.data) with
  | some (v, r) => if (skipWs r).isEmpty then some v else none
  | none => none

/-! ## JavaScript semantics of the payload dispatch -/

/-- True when the mantissa of a number lexeme is zero (so the value is
falsy in JavaScript). -/
def numIsZero (lex : String) : Bool :=
  (lex.data.takeWhile (fun c => !(c == 'e' || c == 'E'))).all
    (fun c => !(c.isDigit && c != '0'))

/-- JavaScript truthiness of a parsed JSON value. -/
def jsTruthy : Json → Bool
| .null => false
| .bool b => b
| .num lex => !numIsZero lex
| .str s => !(s == "")
| .arr _ => true
| .obj _ => true

/-- Last-wins lookup of an object field, matching JSON.parse duplicate-key
behaviour. -/
def getField (fields : List (String × Json)) (k : String) : Option Json :=
  match fields.reverse.find? (fun p => p.1 == k) with
  | some p => some p.2
  | none => none

/-- JavaScript property access, with none for undefined.  Access on null
throws and is handled separately (payloadAborts). -/
def jsProp (j : Json) (k : String) : Option Json :=
  match j with
  | .obj fs => getField fs k
  | _ => none

/-- Truthiness of a property of the payload (undefined is falsy). -/
def propTruthy (j : Json) (k : String) : Bool :=
  match jsProp j k with
  | some v => jsTruthy v
  | none => false

/-- JavaScript string coercion of the chunk value, as used by the += in
the source.  Arrays/objects are approximated (no claim exercises them);
string payload chunks, the only kind the wire protocol carries, coerce to
themselves. -/
def jsToString : Json → String
| .null => "null"
| .bool b => if b then ("true") else ("false")
| .num lex => lex
| .str s => s
| .arr _ => ""
| .obj _ => "[object Object]"

/-- Truthiness of data.error, plus the null case: property access on a
null payload throws a TypeError, and the explicit throw on a truthy
data.error also aborts the try block; both are caught by the inner catch
of the source (line 157), so either way the payload has no effect and the
loop continues. -/
def payloadAborts (j : Json) : Bool :=
  match j with
  | .null => true
  | _ => propTruthy j ("error")

/-- Truthiness of data.chunk. -/
def chunkTruthy (j : Json) : Bool :=
  propTruthy j ("chunk")

/-- Truthiness of data.done. -/
def doneTruthy (j : Json) : Bool :=
  propTruthy j ("done")

/-- The text appended for a truthy data.chunk. -/
def chunkText (j : Json) : String :=
  match jsProp j ("chunk") with
  | some v => jsToString v
  | none => ""

/-- The setMessages map of the source (lines 144-150): replace the content
of every message whose id matches the in-progress assistant id. -/
def updateById (aid : String) (c : String) (msgs : List Message) : List Message :=
  msgs.map (fun m => if m.id == aid then { m with content := c } else m)

/-- Dispatch of one parsed payload (source lines 138-156): an error field
(or a null payload) aborts the try block and is swallowed by the inner
catch; a truthy chunk with falsy done appends the fragment to the buffer
and replaces the assistant content with the cumulative buffer; a truthy
done reports termination.  Returns (buffer, messages, doneSeen). -/
def applyPayload (aid : String) (j : Json) (content : String) (msgs : List Message) :
    String × List Message × Bool :=
  if payloadAborts j then (content, msgs, false)
  else
    let applies := chunkTruthy j && !doneTruthy j
    let content2 := if applies then content ++ chunkText j else content
    let msgs2 := if applies then updateById aid content2 msgs else msgs
    (content2, msgs2, doneTruthy j)

/-- The for-loop over the lines of one decoded raw chunk (source lines
133-161): lines without the data prefix are ignored; a line whose
remainder fails JSON.parse is dropped by the inner catch; a done payload
returns from the handler immediately, skipping the remaining lines. -/
def processLines (aid : String) : List String → String → List Message →
    String × List Message × Bool
| [], content, msgs => (content, msgs, false)
| line :: rest, content, msgs =>
  if strStartsWith line ("data: ") then
    match parseJson (strDrop line 6) with
    | none => processLines aid rest content msgs
    | some j =>
      match applyPayload aid j content msgs with
      | (c2, m2, true) => (c2, m2, true)
      | (c2, m2, false) => processLines aid rest c2 m2
  else processLines aid rest content msgs

/-- The while-loop over reader.read results (source lines 125-162): each
decoded raw chunk is split on newlines independently (no carry-over of a
trailing partial line), a done payload stops reading before transport end
of data, and end of data falls through with doneSeen = false. -/
def processStream (aid : String) : List String → String → List Message →
    String × List Message × Bool
| [], content, msgs => (content, msgs, false)
| ch :: rest, content, msgs =>
  match processLines aid (splitNewlines ch) content msgs with
  | (c2, m2, true) => (c2, m2, true)
  | (c2, m2, false) => processStream aid rest c2 m2

/-- Source getConversationHistory (lines 59-64): the last six messages of
the component messages array, projected to role/content. -/
def getConversationHistory (messages : List Message) : List ConversationHistory :=
  (messages.drop (messages.length - 6)).map (fun m => ⟨m.role.toWire, m.content⟩)

/-- The role/content projection of one message. -/
def toHistoryEntry (m : Message) : ConversationHistory :=
  ⟨m.role.toWire, m.content⟩

/-- Source handleSendMessage (lines 66-169) as a big-step function.  The
generated ids and timestamps of the user and assistant messages are
parameters; resp is the outcome of the single fetch call.  Note that the
conversation_history of the request is computed from st.messages, the
messages binding captured by the closure at render time: the functional
setMessages update does not change the local binding, so the history does
not contain the just-appended user message.  On the ok path the final
isStreaming is the negation of doneSeen: the source only clears it on a
done payload (line 154) or in the outer catch (line 167), not when the
stream ends without done. -/
def handleSendMessage (st : ChatState) (uid aid : String) (t1 t2 : Nat)
    (resp : FetchResult) : ChatState × List Event :=
  if jsTrim st.inputMessage == "" || st.isLoading || st.isStreaming then (st, [])
  else
    let userMessage : Message :=
      { id := uid, content := jsTrim st.inputMessage, role := .user, timestamp := t1 }
    let msgs1 := st.messages ++ [userMessage]
    let req : ChatRequest :=
      { message := userMessage.content,
        conversation_history := getConversationHistory st.messages }
    match resp with
    | .notOk status statusText =>
      ({ messages := msgs1, inputMessage := "", isLoading := false, isStreaming := false,
         error := some ("HTTP " ++ toString status ++ ": " ++ statusText) },
       [.appendMessage userMessage, .issueRequest req])
    | .ok chunks =>
      let assistantMessage : Message :=
        { id := aid, content := "", role := .assistant, timestamp := t2 }
      let msgs2 := msgs1 ++ [assistantMessage]
      match processStream aid chunks ("") msgs2 with
      | (_, msgs3, doneSeen) =>
        ({ messages := msgs3, inputMessage := "", isLoading := false,
           isStreaming := !doneSeen, error := none },
         [.appendMessage userMessage, .issueRequest req, .appendMessage assistantMessage])

/-- The request issued during a handler invocation, if any. -/
def requestOf (events : List Event) : Option ChatRequest :=
  events.findSome? (fun e => match e with
    | .issueRequest r => some r
    | _ => none)

/-- Whether an event appends a user-role message. -/
def isUserAppend (e : Event) : Bool :=
  match e with
  | .appendMessage m => m.role == .user
  | _ => false

/-- Whether an event issues a network request. -/
def isRequestEvent (e : Event) : Bool :=
  match e with
  | .issueRequest _ => true
  | _ => false

/-- Modelled from the spec: TranscriptStore.recentHistory(limit) (spec
section 4.1).  The source only contains the specialization with the limit
fixed at six (getConversationHistory); the general operation with its
limit parameter and its empty result for non-positive limits is not in the
source and is taken from the spec words: the last limit messages projected
to role/content, oldest first, empty for limit at most zero. -/
def recentHistory (messages : List Message) (limit : Int) : List ConversationHistory :=
  if limit ≤ 0 then []
  else (messages.drop (messages.length - limit.toNat)).map toHistoryEntry

/-! ## Concrete states and streams used by the claim instances -/

/-- An idle component state with pending input, before a submit. -/
def exIdle : ChatState :=
  { messages := [], inputMessage := "Hi", isLoading := false, isStreaming := false,
    error := none }

/-- The spec section 8 success stream: Hel, lo, done. -/
def helloStream : List String :=
  ["data: \x7b\"chunk\":\"Hel\"\x7d\n", "data: \x7b\"chunk\":\"lo\"\x7d\n",
   "data: \x7b\"done\":true\x7d\n"]

/-- The component state after the success stream of helloStream. -/
def helloFinal : ChatState :=
  { messages := [⟨"u", "Hi", .user, 0⟩, ⟨"a", "Hello", .assistant, 1⟩],
    inputMessage := "", isLoading := false, isStreaming := false, error := none }

/-- The spec section 8 error stream, followed by one more chunk payload. -/
def c2Stream : List String :=
  ["data: \x7b\"error\":\"boom\"\x7d\n", "data: \x7b\"chunk\":\"x\"\x7d\n"]

/-- The component state the code reaches after a stream that ends without
a done payload: the streaming flag is never cleared. -/
def c3Final : ChatState :=
  { messages := [⟨"u", "Hi", .user, 0⟩, ⟨"a", "partial", .assistant, 1⟩],
    inputMessage := "", isLoading := false, isStreaming := true, error := none }

/-- The transcript during streaming: the appended user turn and the empty
assistant placeholder with id a. -/
def preMsgs : List Message :=
  [⟨"u", "Hi", .user, 0⟩, ⟨"a", "", .assistant, 1⟩]

/-- A payload line carrying a fragment, used to probe chunk-boundary
splits (25 characters). -/
def splitLine : String := "data: \x7b\"chunk\":\"partial\"\x7d"

/-- A ten-message transcript for the recentHistory instance. -/
def msgs10 : List Message :=
  [⟨"0", "m0", .user, 0⟩, ⟨"1", "m1", .assistant, 1⟩, ⟨"2", "m2", .user, 2⟩,
   ⟨"3", "m3", .assistant, 3⟩, ⟨"4", "m4", .user, 4⟩, ⟨"5", "m5", .assistant, 5⟩,
   ⟨"6", "m6", .user, 6⟩, ⟨"7", "m7", .assistant, 7⟩, ⟨"8", "m8", .user, 8⟩,
   ⟨"9", "m9", .assistant, 9⟩]

/-- An error-display state: previous exchange failed, flags cleared. -/
def errSt : ChatState :=
  { messages := [], inputMessage := "hi", isLoading := false, isStreaming := false,
    error := some ("previous failure") }

/-! ## Claim theorems -/

/-- Claim C4, corrected part: a submit while the session is busy
(awaitingResponse or streamingAssistantReply) or with input that trims to
the empty string is a guarded no-op: the state (and so the transcript) is
unchanged and no event, in particular no network request, is produced. -/
theorem c4_busy_or_blank_noop (st : ChatState) (uid aid : String) (t1 t2 : Nat)
    (resp : FetchResult)
    (h : st.isLoading = true ∨ st.isStreaming = true ∨ jsTrim st.inputMessage = "") :
    handleSendMessage st uid aid t1 t2 resp = (st, []) := by
  rcases h with h | h | h <;> simp [handleSendMessage, h]

/-- Witness for c4_busy_or_blank_noop: a loading state is a no-op. -/
theorem c4_busy_or_blank_noop_witness :
    handleSendMessage
      { messages := [], inputMessage := "x", isLoading := true, isStreaming := false,
        error := none } ("u") ("a") 0 0 (FetchResult.ok []) =
    ({ messages := [], inputMessage := "x", isLoading := true, isStreaming := false,
       error := none }, []) :=
  c4_busy_or_blank_noop _ ("u") ("a") 0 0 (FetchResult.ok []) (Or.inl rfl)

/-- Claim C4, counterexample: in the error display state (flags cleared,
an error value retained) the session state is not idle, yet a submit with
non-blank input proceeds: it mutates the transcript and issues a network
request, refuting the claim that every submit outside idle is a no-op. -/
theorem c4_counterexample :
    sessionState errSt ≠ SessionState.idle ∧
    (handleSendMessage errSt ("u") ("a") 0 0 (FetchResult.ok [])).2 ≠ [] ∧
    (handleSendMessage errSt ("u") ("a") 0 0 (FetchResult.ok [])).1.messages ≠
      errSt.messages := by
  decide

/-- Claim C2 (code bug): the source throws on a truthy data.error, but the
throw is inside the try block whose catch was meant for JSON.parse
failures, so it is swallowed: the exchange does not terminate as a
failure, the following chunk payload is still applied to the assistant
message, no error value is retained for the caller, and the session never
enters the error state.  On the stream of the spec example (first payload
error boom) the assistant keeps content empty but the state is not error
either. -/
theorem c2_error_payload_swallowed :
    (handleSendMessage exIdle ("u") ("a") 0 1 (FetchResult.ok c2Stream)).1 =
      { messages := [⟨"u", "Hi", .user, 0⟩, ⟨"a", "x", .assistant, 1⟩],
        inputMessage := "", isLoading := false, isStreaming := true, error := none } ∧
    sessionState (handleSendMessage exIdle ("u") ("a") 0 1 (FetchResult.ok c2Stream)).1 ≠
      SessionState.error ∧
    (handleSendMessage exIdle ("u") ("a") 0 1 (FetchResult.ok c2Stream)).1.error = none ∧
    (handleSendMessage exIdle ("u") ("a") 0 1
        (FetchResult.ok ["data: \x7b\"error\":\"boom\"\x7d\n"])).1 =
      { messages := [⟨"u", "Hi", .user, 0⟩, ⟨"a", "", .assistant, 1⟩],
        inputMessage := "", isLoading := false, isStreaming := true, error := none } := by
  decide

/-- Claim C3 (code bug): when the transport ends without any done payload
the accumulated content does stand as final, but the source never clears
the streaming flag on this path (only a done payload or the outer catch
clear it), so the session does not end idle: the state remains
streamingAssistantReply and a subsequent submit is rejected by the
guard. -/
theorem c3_eof_leaves_streaming :
    (handleSendMessage exIdle ("u") ("a") 0 1
        (FetchResult.ok ["data: \x7b\"chunk\":\"partial\"\x7d\n"])).1 = c3Final ∧
    c3Final.isStreaming = true ∧
    sessionState c3Final ≠ SessionState.idle ∧
    handleSendMessage { c3Final with inputMessage := "again" } ("u2") ("a2") 2 3
        (FetchResult.ok []) =
      ({ c3Final with inputMessage := "again" }, []) := by
  decide

/-- Claim C1, counterexample: submitting hola on an empty transcript
issues a request whose history is empty (the closure still sees the
render-time messages array, which the functional setMessages update does
not change), so the just-appended user turn is not the final history
entry; the user text travels only in the dedicated message field. -/
theorem c1_counterexample :
    requestOf (handleSendMessage
      { messages := [], inputMessage := "hola", isLoading := false, isStreaming := false,
        error := none } ("u1") ("a1") 1 2 (FetchResult.ok [])).2 =
      some { message := "hola", conversation_history := [] } ∧
    (match requestOf (handleSendMessage
        { messages := [], inputMessage := "hola", isLoading := false, isStreaming := false,
          error := none } ("u1") ("a1") 1 2 (FetchResult.ok [])).2 with
      | some r => r.conversation_history.getLast?
      | none => none) ≠ some (ConversationHistory.mk ("user") ("hola")) := by
  decide

/-- Claim C1, amended: for every accepted submit the outgoing request
carries the trimmed user text in the dedicated message field, and its
history is the role/content projection of at most the last six messages of
the transcript as it stood before the user turn was appended — a suffix of
that pre-submit transcript, in order, not containing the new user turn. -/
theorem c1_history_snapshot (st : ChatState) (uid aid : String) (t1 t2 : Nat)
    (resp : FetchResult) (hin : jsTrim st.inputMessage ≠ "")
    (hl : st.isLoading = false) (hs : st.isStreaming = false) :
    ∃ r, requestOf (handleSendMessage st uid aid t1 t2 resp).2 = some r ∧
      r.message = jsTrim st.inputMessage ∧
      r.conversation_history = getConversationHistory st.messages ∧
      r.conversation_history.length ≤ 6 ∧
      r.conversation_history <:+ st.messages.map toHistoryEntry := by
  have h1 : (jsTrim st.inputMessage == "") = false := by simp [hin]
  refine ⟨{ message := jsTrim st.inputMessage,
            conversation_history := getConversationHistory st.messages }, ?_, rfl, rfl, ?_, ?_⟩
  · cases resp <;> simp [handleSendMessage, h1, hl, hs, requestOf]
  · simp only [getConversationHistory, List.length_map, List.length_drop]
    omega
  · refine ⟨(st.messages.take (st.messages.length - 6)).map toHistoryEntry, ?_⟩
    show (st.messages.take (st.messages.length - 6)).map toHistoryEntry ++
      (st.messages.drop (st.messages.length - 6)).map toHistoryEntry =
      st.messages.map toHistoryEntry
    rw [← List.map_append, List.take_append_drop]

/-- Witness for c1_history_snapshot at a concrete state. -/
theorem c1_history_snapshot_witness :
    ∃ r, requestOf (handleSendMessage
      { messages := [⟨"1", "hi", .assistant, 0⟩], inputMessage := " hola ",
        isLoading := false, isStreaming := false, error := none }
      ("u1") ("a1") 1 2 (FetchResult.ok [])).2 = some r ∧
      r.message = jsTrim (" hola ") ∧
      r.conversation_history =
        getConversationHistory [⟨"1", "hi", .assistant, 0⟩] ∧
      r.conversation_history.length ≤ 6 ∧
      r.conversation_history <:+
        List.map toHistoryEntry [⟨"1", "hi", .assistant, 0⟩] :=
  c1_history_snapshot _ ("u1") ("a1") 1 2 (FetchResult.ok []) (by decide) rfl rfl

/-- Claim C5: every accepted submit first appends exactly one user message
whose content is the trimmed input, and only then issues the single
network request: the event trace starts with the append followed by the
request, the only user-role append and the only request of the
invocation. -/
theorem c5_appends_user_before_request (st : ChatState) (uid aid : String)
    (t1 t2 : Nat) (resp : FetchResult) (hin : jsTrim st.inputMessage ≠ "")
    (hl : st.isLoading = false) (hs : st.isStreaming = false) :
    ∃ u r rest, (handleSendMessage st uid aid t1 t2 resp).2 =
        Event.appendMessage u :: Event.issueRequest r :: rest ∧
      u.role = Role.user ∧ u.content = jsTrim st.inputMessage ∧
      ((handleSendMessage st uid aid t1 t2 resp).2.filter isUserAppend =
        [Event.appendMessage u]) ∧
      ((handleSendMessage st uid aid t1 t2 resp).2.filter isRequestEvent =
        [Event.issueRequest r]) := by
  have h1 : (jsTrim st.inputMessage == "") = false := by simp [hin]
  cases resp with
  | notOk status statusText =>
    refine ⟨{ id := uid, content := jsTrim st.inputMessage, role := .user, timestamp := t1 },
            { message := jsTrim st.inputMessage,
              conversation_history := getConversationHistory st.messages }, [], ?_⟩
    simp [handleSendMessage, h1, hl, hs, List.filter, isUserAppend, isRequestEvent]
  | ok chunks =>
    refine ⟨{ id := uid, content := jsTrim st.inputMessage, role := .user, timestamp := t1 },
            { message := jsTrim st.inputMessage,
              conversation_history := getConversationHistory st.messages },
            [Event.appendMessage ⟨aid, "", Role.assistant, t2⟩], ?_⟩
    simp [handleSendMessage, h1, hl, hs, List.filter, isUserAppend, isRequestEvent]
    rfl

/-- Witness for c5_appends_user_before_request at a concrete state. -/
theorem c5_appends_user_before_request_witness :
    ∃ u r rest, (handleSendMessage exIdle ("u") ("a") 0 1
        (FetchResult.ok helloStream)).2 =
        Event.appendMessage u :: Event.issueRequest r :: rest ∧
      u.role = Role.user ∧ u.content = jsTrim ("Hi") ∧
      ((handleSendMessage exIdle ("u") ("a") 0 1
          (FetchResult.ok helloStream)).2.filter isUserAppend =
        [Event.appendMessage u]) ∧
      ((handleSendMessage exIdle ("u") ("a") 0 1
          (FetchResult.ok helloStream)).2.filter isRequestEvent =
        [Event.issueRequest r]) :=
  c5_appends_user_before_request exIdle ("u") ("a") 0 1 (FetchResult.ok helloStream)
    (by decide) rfl rfl

/-- Claim C6: recentHistory(limit) — the general operation modelled from
the spec, whose fixed-limit-six specialization is the source
getConversationHistory — agrees with the source function at limit six,
yields the empty sequence for limits at most zero, always returns a
suffix of the role/content projection of the transcript (so order is
preserved and the transcript is untouched), returns exactly limit entries
whenever the transcript is long enough, and on the concrete ten-message
transcript returns exactly the last six in original order. -/
theorem c6_recent_history :
    (∀ msgs, recentHistory msgs 6 = getConversationHistory msgs) ∧
    (∀ msgs (lim : Int), lim ≤ 0 → recentHistory msgs lim = []) ∧
    (∀ msgs (lim : Int), recentHistory msgs lim <:+ msgs.map toHistoryEntry) ∧
    (∀ msgs (lim : Int), 0 < lim → lim.toNat ≤ msgs.length →
      (recentHistory msgs lim).length = lim.toNat) ∧
    recentHistory msgs10 6 = List.map toHistoryEntry (msgs10.drop 4) ∧
    (recentHistory msgs10 6).length = 6 := by
  refine ⟨fun msgs => rfl, fun msgs lim h => by simp [recentHistory, h], ?_, ?_, by decide,
    by decide⟩
  · intro msgs lim
    by_cases h : lim ≤ 0
    · simp [recentHistory, h]
    · refine ⟨(msgs.take (msgs.length - lim.toNat)).map toHistoryEntry, ?_⟩
      show (msgs.take (msgs.length - lim.toNat)).map toHistoryEntry ++
        recentHistory msgs lim = msgs.map toHistoryEntry
      rw [recentHistory, if_neg h, ← List.map_append, List.take_append_drop]
  · intro msgs lim h1 h2
    have h3 : ¬ lim ≤ 0 := by omega
    simp only [recentHistory, if_neg h3, List.length_map, List.length_drop]
    omega

/-- Witness for c6_recent_history at the ten-message transcript. -/
theorem c6_recent_history_witness :
    recentHistory msgs10 (-1) = [] ∧ (recentHistory msgs10 6).length = 6 :=
  ⟨c6_recent_history.2.1 msgs10 (-1) (by decide),
   c6_recent_history.2.2.2.1 msgs10 6 (by decide) (by decide)⟩

/-- Claim C7: a payload with a truthy chunk, falsy done and no error
appends the fragment to the running buffer and replaces the assistant
content with the full cumulative buffer; a payload with truthy done
terminates the exchange without applying its chunk; a done payload stops
the stream loop immediately, so chunks after it are never read; and on the
spec stream Hel, lo, done the handler ends with assistant content exactly
Hello and the session idle. -/
theorem c7_chunk_accumulation :
    (∀ aid j c m, payloadAborts j = false → chunkTruthy j = true → doneTruthy j = false →
      applyPayload aid j c m = (c ++ chunkText j, updateById aid (c ++ chunkText j) m, false)) ∧
    (∀ aid j c m, payloadAborts j = false → doneTruthy j = true →
      applyPayload aid j c m = (c, m, true)) ∧
    (∀ aid extra c m, processStream aid (("data: \x7b\"done\":true\x7d\n") :: extra) c m =
      (c, m, true)) ∧
    (handleSendMessage exIdle ("u") ("a") 0 1 (FetchResult.ok helloStream)).1 = helloFinal ∧
    sessionState helloFinal = SessionState.idle ∧
    (handleSendMessage exIdle ("u") ("a") 0 1
      (FetchResult.ok (helloStream ++ ["data: \x7b\"chunk\":\"XX\"\x7d\n"]))).1 = helloFinal := by
  refine ⟨?_, ?_, ?_, by decide, by decide, by decide⟩
  · intro aid j c m h1 h2 h3
    simp [applyPayload, h1, h2, h3]
  · intro aid j c m h1 h2
    simp [applyPayload, h1, h2]
  · intro aid extra c m
    rfl

/-- Witness for c7_chunk_accumulation: the lo payload extends the buffer
Hel to Hello and rewrites the assistant message with it. -/
theorem c7_chunk_accumulation_witness :
    applyPayload ("a") (Json.obj [("chunk", Json.str ("lo"))]) ("Hel") preMsgs =
      ("Hello", updateById ("a") ("Hello") preMsgs, false) :=
  c7_chunk_accumulation.1 ("a") (Json.obj [("chunk", Json.str ("lo"))]) ("Hel") preMsgs
    rfl rfl rfl

/-- Claim C8: a data-prefixed line whose remainder fails to parse is
dropped without aborting the stream loop (processing continues with the
remaining lines unchanged), a line without the data prefix is ignored, and
a malformed line interleaved between the two valid chunk lines of the spec
example does not interrupt the accumulation: the assistant still ends with
content Hello. -/
theorem c8_malformed_line_tolerated :
    (∀ aid line rest c m, strStartsWith line ("data: ") = true →
      parseJson (strDrop line 6) = none →
      processLines aid (line :: rest) c m = processLines aid rest c m) ∧
    (∀ aid line rest c m, strStartsWith line ("data: ") = false →
      processLines aid (line :: rest) c m = processLines aid rest c m) ∧
    (handleSendMessage exIdle ("u") ("a") 0 1
      (FetchResult.ok ["data: \x7b\"chunk\":\"Hel\"\x7d\n", "data: \x7bnot valid json\x7d\n",
        "data: \x7b\"chunk\":\"lo\"\x7d\n"])).1.messages =
      [⟨"u", "Hi", .user, 0⟩, ⟨"a", "Hello", .assistant, 1⟩] := by
  refine ⟨?_, ?_, by decide⟩
  · intro aid line rest c m h1 h2
    simp [processLines, h1, h2]
  · intro aid line rest c m h1
    simp [processLines, h1]

/-- Witness for c8_malformed_line_tolerated: a malformed data line is
skipped. -/
theorem c8_malformed_line_tolerated_witness :
    processLines ("a") ["data: \x7bnope\x7d"] ("c") preMsgs =
      processLines ("a") [] ("c") preMsgs :=
  c8_malformed_line_tolerated.1 ("a") ("data: \x7bnope\x7d") [] ("c") preMsgs rfl rfl

/-- Claim C9: on a non-2xx response the handler fails immediately: the
transcript retains only the already-appended user message (no assistant
message is created), the retained error carries the status and status
text, the request was issued, and the session ends in the error state. -/
theorem c9_http_error (st : ChatState) (uid aid : String) (t1 t2 status : Nat)
    (statusText : String) (hin : jsTrim st.inputMessage ≠ "")
    (hl : st.isLoading = false) (hs : st.isStreaming = false) :
    handleSendMessage st uid aid t1 t2 (FetchResult.notOk status statusText) =
      ({ messages := st.messages ++
           [⟨uid, jsTrim st.inputMessage, Role.user, t1⟩],
         inputMessage := "", isLoading := false, isStreaming := false,
         error := some ("HTTP " ++ toString status ++ ": " ++ statusText) },
       [Event.appendMessage ⟨uid, jsTrim st.inputMessage, Role.user, t1⟩,
        Event.issueRequest ⟨jsTrim st.inputMessage, getConversationHistory st.messages⟩]) ∧
    sessionState (handleSendMessage st uid aid t1 t2
      (FetchResult.notOk status statusText)).1 = SessionState.error := by
  have h1 : (jsTrim st.inputMessage == "") = false := by simp [hin]
  constructor
  · simp [handleSendMessage, h1, hl, hs]
  · simp [handleSendMessage, h1, hl, hs, sessionState]

/-- Witness for c9_http_error at a concrete state and status. -/
theorem c9_http_error_witness :
    handleSendMessage exIdle ("u") ("a") 0 1
        (FetchResult.notOk 500 ("Internal Server Error")) =
      ({ messages := [⟨"u", jsTrim ("Hi"), Role.user, 0⟩],
         inputMessage := "", isLoading := false, isStreaming := false,
         error := some ("HTTP " ++ toString 500 ++ ": " ++ "Internal Server Error") },
       [Event.appendMessage ⟨"u", jsTrim ("Hi"), Role.user, 0⟩,
        Event.issueRequest ⟨jsTrim ("Hi"), getConversationHistory []⟩]) ∧
    sessionState (handleSendMessage exIdle ("u") ("a") 0 1
      (FetchResult.notOk 500 ("Internal Server Error"))).1 = SessionState.error := by
  have h := c9_http_error exIdle ("u") ("a") 0 1 500 ("Internal Server Error")
    (by decide) rfl rfl
  exact h

/-- Claim C10: the reader loop splits each decoded raw chunk on newlines
independently, threading only the content buffer and the message list
between reads (no carry-over of a trailing partial line); consequently
when the 25-character payload line splitLine arrives split at any interior
position across two consecutive reads, neither half survives the prefix
check and JSON.parse (the first half is either not data-prefixed or
unparsable, the second half is never data-prefixed), so the fragment is
silently dropped — while the same line delivered unsplit does apply its
fragment. -/
theorem c10_split_line_dropped :
    (∀ aid ch rest content msgs,
      processStream aid (ch :: rest) content msgs =
        match processLines aid (splitNewlines ch) content msgs with
        | (c2, m2, true) => (c2, m2, true)
        | (c2, m2, false) => processStream aid rest c2 m2) ∧
    (∀ k, k < 25 → 0 < k →
      processStream ("a") [strTake splitLine k, strDrop splitLine k ++ "\n"] ("") preMsgs =
        ("", preMsgs, false) ∧
      (strStartsWith (strTake splitLine k) ("data: ") = false ∨
        (parseJson (strDrop (strTake splitLine k) 6)).isNone = true) ∧
      strStartsWith (strDrop splitLine k) ("data: ") = false) ∧
    processStream ("a") [splitLine ++ "\n"] ("") preMsgs =
      ("partial", updateById ("a") ("partial") preMsgs, false) := by
  refine ⟨fun aid ch rest content msgs => rfl, ?_, by decide⟩
  decide

/-- Witness for c10_split_line_dropped: the split after character ten. -/
theorem c10_split_line_dropped_witness :
    processStream ("a") [strTake splitLine 10, strDrop splitLine 10 ++ "\n"] ("") preMsgs =
      ("", preMsgs, false) :=
  (c10_split_line_dropped.2.1 10 (by decide) (by decide)).1
